import Mathlib

/-!
Verification of the Board State & Turn Synchronization Engine of the
battleship front end.

The definitions below are shallow embeddings of the TypeScript sources:
* `src/components/game/GameBoard.tsx` (`CellState`),
* `src/pages/Game.tsx` (`findAndMarkShipAsSunk`, the `move_result`,
  `turn_update` and animation-completion handlers, `handleAttackOpponent`),
* `src/components/game/CanvasGameBoard.tsx` / `ShipPlacementBoard.tsx`
  (`isValidPosition`, rotation handling, the attack click path),
* `src/models/Ship.ts` (`getInitialShips`, `getDefaultShipPlacement`).

Boards are lists of rows of cells, exactly as the `CellState[][]` arrays in
the source; out-of-range writes are no-ops (as `List.set` is), and reads
outside the populated area default to `EMPTY`.  The JavaScript `while` loops
of `findAndMarkShipAsSunk` are bounded by the fixed board geometry (a column
index can only grow while it is `< 9`), so they are translated with an
explicit iteration bound that the loop can never exhaust, keeping every
definition executable.
-/

namespace Battleship

/-- Cell states, from `GameBoard.tsx` (`enum CellState`). -/
inductive CellState where
  | EMPTY
  | SHIP
  | HIT
  | MISS
  | SUNK
deriving DecidableEq, Repr

/-- A board is a list of rows of cells, mirroring `CellState[][]`. -/
abbrev Board := List (List CellState)

/-- Read `board[row][col]`; indices outside the allocated grid read `EMPTY`. -/
def getCell (b : Board) (row col : Nat) : CellState :=
  (b.getD row []).getD col CellState.EMPTY

/-- Write `board[row][col] = v` (copy-on-write, as the source's array copies). -/
def setCell (b : Board) (row col : Nat) (v : CellState) : Board :=
  b.set row ((b.getD row []).set col v)

/-- The 10×10 all-`EMPTY` board created by `Array(10).fill(...)` in `Game.tsx`. -/
def emptyBoard : Board :=
  List.replicate 10 (List.replicate 10 CellState.EMPTY)

/-- A board actually allocated as a 10×10 grid. -/
def wellFormed (b : Board) : Prop :=
  b.length = 10 ∧ ∀ i, i < 10 → (b.getD i []).length = 10

instance (b : Board) : Decidable (wellFormed b) := by
  unfold wellFormed; infer_instance

/-- The neighbour test of the scan loops in `findAndMarkShipAsSunk`:
`cell === CellState.HIT || cell === CellState.SHIP`. -/
def hitOrShip (c : CellState) : Bool :=
  c = CellState.HIT || c = CellState.SHIP

/-- `while (startCol > 0 && hitOrShip(board[row][startCol-1])) startCol--`. -/
def scanLeft (b : Board) (row : Nat) : Nat → Nat
  | 0 => 0
  | c + 1 => if hitOrShip (getCell b row c) then scanLeft b row c else c + 1

/-- One bounded unfolding of
`while (endCol < 9 && hitOrShip(board[row][endCol+1])) endCol++`.
The loop body only runs while the index is `< 9`, so from any start the loop
performs at most 9 iterations; `scanRight` supplies that bound. -/
def scanRightGo (b : Board) (row : Nat) : Nat → Nat → Nat
  | 0, c => c
  | f + 1, c =>
    if c < 9 && hitOrShip (getCell b row (c + 1)) then scanRightGo b row f (c + 1)
    else c

/-- The rightward scan of `findAndMarkShipAsSunk`. -/
def scanRight (b : Board) (row c : Nat) : Nat :=
  scanRightGo b row 9 c

/-- `while (startRow > 0 && hitOrShip(board[startRow-1][col])) startRow--`. -/
def scanUp (b : Board) (col : Nat) : Nat → Nat
  | 0 => 0
  | r + 1 => if hitOrShip (getCell b r col) then scanUp b col r else r + 1

/-- Bounded unfolding of
`while (endRow < 9 && hitOrShip(board[endRow+1][col])) endRow++`. -/
def scanDownGo (b : Board) (col : Nat) : Nat → Nat → Nat
  | 0, r => r
  | f + 1, r =>
    if r < 9 && hitOrShip (getCell b (r + 1) col) then scanDownGo b col f (r + 1)
    else r

/-- The downward scan of `findAndMarkShipAsSunk`. -/
def scanDown (b : Board) (col r : Nat) : Nat :=
  scanDownGo b col 9 r

/-- `for (let col = s; col <= e; col++) board[row][col] = SUNK`, iterated
`e + 1 - s` times (zero times when `s > e`). -/
def markRowGo (row : Nat) : Nat → Board → Nat → Board
  | 0, b, _ => b
  | f + 1, b, s => markRowGo row f (setCell b row s CellState.SUNK) (s + 1)

/-- Mark columns `s..e` of `row` as `SUNK`. -/
def markRowRange (b : Board) (row s e : Nat) : Board :=
  markRowGo row (e + 1 - s) b s

/-- `for (let row = s; row <= e; row++) board[row][col] = SUNK`. -/
def markColGo (col : Nat) : Nat → Board → Nat → Board
  | 0, b, _ => b
  | f + 1, b, s => markColGo col f (setCell b s col CellState.SUNK) (s + 1)

/-- Mark rows `s..e` of `col` as `SUNK`. -/
def markColRange (b : Board) (col s e : Nat) : Board :=
  markColGo col (e + 1 - s) b s

/-- `findAndMarkShipAsSunk` from `Game.tsx` (lines 52–104): mark the hit cell
`SUNK`, extend left/right over `HIT`/`SHIP` neighbours; if that run has
length > 1 mark it all `SUNK`, otherwise try the vertical axis the same way. -/
def findAndMarkShipAsSunk (board : Board) (hitRow hitCol : Nat) : Board :=
  let newBoard := setCell board hitRow hitCol CellState.SUNK
  let startCol := scanLeft newBoard hitRow hitCol
  let endCol := scanRight newBoard hitRow hitCol
  if endCol - startCol > 0 then
    markRowRange newBoard hitRow startCol endCol
  else
    let startRow := scanUp newBoard hitCol hitRow
    let endRow := scanDown newBoard hitCol hitRow
    if endRow - startRow > 0 then
      markColRange newBoard hitCol startRow endRow
    else
      newBoard

/-- The three move outcomes of a `move_result` event. -/
inductive MoveOutcome where
  | hit
  | miss
  | sunk
deriving DecidableEq, Repr

/-- The grid mutation performed by the `move_result` handler in `Game.tsx`
(either board: `HIT` on hit, `findAndMarkShipAsSunk` on sunk, `MISS` else). -/
def applyMoveResult (b : Board) (row col : Nat) (result : MoveOutcome) : Board :=
  match result with
  | .hit => setCell b row col CellState.HIT
  | .sunk => findAndMarkShipAsSunk b row col
  | .miss => setCell b row col CellState.MISS

/-! ### Basic lemmas about grid access -/

theorem list_getD_set {α : Type} (l : List α) (i j : Nat) (a d : α) :
    (l.set i a).getD j d = if i = j ∧ i < l.length then a else l.getD j d := by
  induction l generalizing i j with
  | nil => simp
  | cons hd tl ih =>
    cases i with
    | zero =>
      cases j with
      | zero => simp [List.set]
      | succ k => simp [List.set]
    | succ m =>
      cases j with
      | zero => simp [List.set]
      | succ k =>
        simp only [List.set, List.getD_cons_succ, List.length_cons]
        rw [ih]
        split_ifs with h1 h2 h2 <;> first | rfl | omega

theorem getCell_setCell (b : Board) (r c i j : Nat) (v : CellState)
    (hw : wellFormed b) (hr : r < 10) (hc : c < 10) :
    getCell (setCell b r c v) i j =
      if i = r ∧ j = c then v else getCell b i j := by
  obtain ⟨hlen, hrows⟩ := hw
  unfold getCell setCell
  rw [list_getD_set]
  by_cases hir : r = i
  · subst hir
    rw [if_pos ⟨rfl, by omega⟩, list_getD_set, hrows r hr]
    split_ifs with h1 h2 h2 <;> first | rfl | omega
  · rw [if_neg (by tauto), if_neg (by tauto)]

theorem wellFormed_setCell (b : Board) (r c : Nat) (v : CellState)
    (hw : wellFormed b) : wellFormed (setCell b r c v) := by
  obtain ⟨hlen, hrows⟩ := hw
  constructor
  · simp [setCell, hlen]
  · intro i hi
    unfold setCell
    rw [list_getD_set]
    split_ifs with h
    · rw [List.length_set]; exact hrows r (h.1 ▸ hi)
    · exact hrows i hi

theorem setCell_setCell_same (b : Board) (r c : Nat) (v : CellState) :
    setCell (setCell b r c v) r c v = setCell b r c v := by
  by_cases h : r < b.length
  · unfold setCell
    rw [list_getD_set, if_pos ⟨rfl, h⟩, List.set_set, List.set_set]
  · have hb : setCell b r c v = b := by
      unfold setCell
      exact List.set_eq_of_length_le (by omega)
    rw [hb]
    exact hb

/-! ### Properties of the scan loops -/

theorem scanLeft_le (b : Board) (row : Nat) : ∀ c, scanLeft b row c ≤ c := by
  intro c
  induction c with
  | zero => simp [scanLeft]
  | succ n ih =>
    unfold scanLeft
    split
    · omega
    · omega

theorem scanLeft_mem (b : Board) (row : Nat) :
    ∀ c j, scanLeft b row c ≤ j → j < c → hitOrShip (getCell b row j) = true := by
  intro c
  induction c with
  | zero => intro j _ h; omega
  | succ n ih =>
    intro j h1 h2
    by_cases hh : hitOrShip (getCell b row n) = true
    · rw [scanLeft, if_pos hh] at h1
      rcases Nat.lt_succ_iff_lt_or_eq.mp h2 with h2' | h2'
      · exact ih j h1 h2'
      · exact h2' ▸ hh
    · rw [scanLeft, if_neg hh] at h1
      omega

theorem scanRightGo_ge (b : Board) (row : Nat) :
    ∀ f c, c ≤ scanRightGo b row f c := by
  intro f
  induction f with
  | zero => intro c; simp [scanRightGo]
  | succ n ih =>
    intro c
    unfold scanRightGo
    split
    · exact le_trans (by omega) (ih (c + 1))
    · exact le_refl c

theorem scanRightGo_le9 (b : Board) (row : Nat) :
    ∀ f c, c ≤ 9 → scanRightGo b row f c ≤ 9 := by
  intro f
  induction f with
  | zero => intro c h; simpa [scanRightGo] using h
  | succ n ih =>
    intro c h
    unfold scanRightGo
    split
    · rename_i hcond
      have : c < 9 := by
        rcases Bool.and_eq_true .. ▸ hcond with ⟨h1, _⟩
        exact of_decide_eq_true h1
      exact ih (c + 1) (by omega)
    · exact h

theorem scanRightGo_mem (b : Board) (row : Nat) :
    ∀ f c j, c < j → j ≤ scanRightGo b row f c →
      hitOrShip (getCell b row j) = true := by
  intro f
  induction f with
  | zero => intro c j h1 h2; simp [scanRightGo] at h2; omega
  | succ n ih =>
    intro c j h1 h2
    unfold scanRightGo at h2
    split at h2
    · rename_i hcond
      rcases Bool.and_eq_true .. ▸ hcond with ⟨_, hh⟩
      rcases Nat.lt_iff_add_one_le.mp h1 |>.lt_or_eq with h1' | h1'
      · exact ih (c + 1) j h1' h2
      · exact h1' ▸ hh
    · omega

theorem scanUp_le (b : Board) (col : Nat) : ∀ r, scanUp b col r ≤ r := by
  intro r
  induction r with
  | zero => simp [scanUp]
  | succ n ih =>
    unfold scanUp
    split
    · omega
    · omega

theorem scanUp_mem (b : Board) (col : Nat) :
    ∀ r i, scanUp b col r ≤ i → i < r → hitOrShip (getCell b i col) = true := by
  intro r
  induction r with
  | zero => intro i _ h; omega
  | succ n ih =>
    intro i h1 h2
    by_cases hh : hitOrShip (getCell b n col) = true
    · rw [scanUp, if_pos hh] at h1
      rcases Nat.lt_succ_iff_lt_or_eq.mp h2 with h2' | h2'
      · exact ih i h1 h2'
      · exact h2' ▸ hh
    · rw [scanUp, if_neg hh] at h1
      omega

theorem scanDownGo_ge (b : Board) (col : Nat) :
    ∀ f r, r ≤ scanDownGo b col f r := by
  intro f
  induction f with
  | zero => intro r; simp [scanDownGo]
  | succ n ih =>
    intro r
    unfold scanDownGo
    split
    · exact le_trans (by omega) (ih (r + 1))
    · exact le_refl r

theorem scanDownGo_le9 (b : Board) (col : Nat) :
    ∀ f r, r ≤ 9 → scanDownGo b col f r ≤ 9 := by
  intro f
  induction f with
  | zero => intro r h; simpa [scanDownGo] using h
  | succ n ih =>
    intro r h
    unfold scanDownGo
    split
    · rename_i hcond
      have : r < 9 := by
        rcases Bool.and_eq_true .. ▸ hcond with ⟨h1, _⟩
        exact of_decide_eq_true h1
      exact ih (r + 1) (by omega)
    · exact h

theorem scanDownGo_mem (b : Board) (col : Nat) :
    ∀ f r i, r < i → i ≤ scanDownGo b col f r →
      hitOrShip (getCell b i col) = true := by
  intro f
  induction f with
  | zero => intro r i h1 h2; simp [scanDownGo] at h2; omega
  | succ n ih =>
    intro r i h1 h2
    unfold scanDownGo at h2
    split at h2
    · rename_i hcond
      rcases Bool.and_eq_true .. ▸ hcond with ⟨_, hh⟩
      rcases Nat.lt_iff_add_one_le.mp h1 |>.lt_or_eq with h1' | h1'
      · exact ih (r + 1) i h1' h2
      · exact h1' ▸ hh
    · omega

/-! ### The marking loops change exactly the scanned range -/

theorem getCell_markRowGo (row : Nat) :
    ∀ (f : Nat) (b : Board) (s i j : Nat), wellFormed b → row < 10 → s + f ≤ 10 →
    getCell (markRowGo row f b s) i j =
      if i = row ∧ s ≤ j ∧ j < s + f then CellState.SUNK else getCell b i j := by
  intro f
  induction f with
  | zero =>
    intro b s i j _ _ _
    rw [markRowGo, if_neg (by omega)]
  | succ n ih =>
    intro b s i j hw hrow hle
    rw [markRowGo,
      ih (setCell b row s CellState.SUNK) (s + 1) i j
        (wellFormed_setCell b row s CellState.SUNK hw) hrow (by omega),
      getCell_setCell b row s i j CellState.SUNK hw hrow (by omega)]
    split_ifs with h1 h2 h3 <;> first | rfl | omega

theorem getCell_markRowRange (b : Board) (row s e i j : Nat)
    (hw : wellFormed b) (hrow : row < 10) (hs : s ≤ 9) (he : e ≤ 9) :
    getCell (markRowRange b row s e) i j =
      if i = row ∧ s ≤ j ∧ j ≤ e then CellState.SUNK else getCell b i j := by
  rw [markRowRange, getCell_markRowGo row (e + 1 - s) b s i j hw hrow (by omega)]
  split_ifs with h1 h2 <;> first | rfl | omega

theorem getCell_markColGo (col : Nat) :
    ∀ (f : Nat) (b : Board) (s i j : Nat), wellFormed b → col < 10 → s + f ≤ 10 →
    getCell (markColGo col f b s) i j =
      if j = col ∧ s ≤ i ∧ i < s + f then CellState.SUNK else getCell b i j := by
  intro f
  induction f with
  | zero =>
    intro b s i j _ _ _
    rw [markColGo, if_neg (by omega)]
  | succ n ih =>
    intro b s i j hw hcol hle
    rw [markColGo,
      ih (setCell b s col CellState.SUNK) (s + 1) i j
        (wellFormed_setCell b s col CellState.SUNK hw) hcol (by omega),
      getCell_setCell b s col i j CellState.SUNK hw (by omega) hcol]
    split_ifs with h1 h2 h3 <;> first | rfl | omega

theorem getCell_markColRange (b : Board) (col s e i j : Nat)
    (hw : wellFormed b) (hcol : col < 10) (hs : s ≤ 9) (he : e ≤ 9) :
    getCell (markColRange b col s e) i j =
      if j = col ∧ s ≤ i ∧ i ≤ e then CellState.SUNK else getCell b i j := by
  rw [markColRange, getCell_markColGo col (e + 1 - s) b s i j hw hcol (by omega)]
  split_ifs with h1 h2 <;> first | rfl | omega

/-! ### The extent computed by `findAndMarkShipAsSunk` -/

/-- The set of cells the sunk-detection scan of `findAndMarkShipAsSunk`
identifies as the ship's extent: the horizontal `HIT`/`SHIP` run through the
hit cell when it has length > 1, otherwise the vertical run when it has
length > 1, otherwise the hit cell alone. -/
def inExtent (b : Board) (row col i j : Nat) : Bool :=
  let nb := setCell b row col CellState.SUNK
  let startCol := scanLeft nb row col
  let endCol := scanRight nb row col
  if endCol - startCol > 0 then
    i = row && startCol ≤ j && j ≤ endCol
  else
    let startRow := scanUp nb col row
    let endRow := scanDown nb col row
    if endRow - startRow > 0 then
      j = col && startRow ≤ i && i ≤ endRow
    else
      i = row && j = col

/-- `findAndMarkShipAsSunk` marks exactly the cells of the scanned extent as
`SUNK` and leaves every other cell of the board unchanged. -/
theorem findAndMark_getCell (b : Board) (row col : Nat)
    (hw : wellFormed b) (hr : row < 10) (hc : col < 10) (i j : Nat) :
    getCell (findAndMarkShipAsSunk b row col) i j =
      if inExtent b row col i j then CellState.SUNK else getCell b i j := by
  simp only [findAndMarkShipAsSunk, inExtent]
  have hwnb : wellFormed (setCell b row col CellState.SUNK) :=
    wellFormed_setCell b row col CellState.SUNK hw
  have hgetnb : getCell (setCell b row col CellState.SUNK) i j =
      if i = row ∧ j = col then CellState.SUNK else getCell b i j :=
    getCell_setCell b row col i j CellState.SUNK hw hr hc
  have hsL : scanLeft (setCell b row col CellState.SUNK) row col ≤ col :=
    scanLeft_le _ row col
  have hsR : col ≤ scanRight (setCell b row col CellState.SUNK) row col :=
    scanRightGo_ge _ row 9 col
  have hsR9 : scanRight (setCell b row col CellState.SUNK) row col ≤ 9 :=
    scanRightGo_le9 _ row 9 col (by omega)
  have hsU : scanUp (setCell b row col CellState.SUNK) col row ≤ row :=
    scanUp_le _ col row
  have hsD : row ≤ scanDown (setCell b row col CellState.SUNK) col row :=
    scanDownGo_ge _ col 9 row
  have hsD9 : scanDown (setCell b row col CellState.SUNK) col row ≤ 9 :=
    scanDownGo_le9 _ col 9 row (by omega)
  by_cases hH : scanRight (setCell b row col CellState.SUNK) row col -
      scanLeft (setCell b row col CellState.SUNK) row col > 0
  · rw [if_pos hH, if_pos hH,
      getCell_markRowRange _ row _ _ i j hwnb hr (by omega) hsR9, hgetnb]
    simp only [Bool.and_eq_true, decide_eq_true_eq]
    split_ifs with h1 h2 h3 <;> first | rfl | omega
  · rw [if_neg hH, if_neg hH]
    by_cases hV : scanDown (setCell b row col CellState.SUNK) col row -
        scanUp (setCell b row col CellState.SUNK) col row > 0
    · rw [if_pos hV, if_pos hV,
        getCell_markColRange _ col _ _ i j hwnb hc (by omega) hsD9, hgetnb]
      simp only [Bool.and_eq_true, decide_eq_true_eq]
      split_ifs with h1 h2 h3 <;> first | rfl | omega
    · rw [if_neg hV, if_neg hV, hgetnb]
      simp only [Bool.and_eq_true, decide_eq_true_eq]

/-! ### The game component state machine (`Game.tsx`) -/

/-- `enum GameState` in `Game.tsx`. -/
inductive GamePhase where
  | SETUP
  | PLAYING
  | GAME_OVER
deriving DecidableEq, Repr

/-- The possible winners (`'player' | 'opponent'`). -/
inductive Winner where
  | player
  | opponent
deriving DecidableEq, Repr

/-- The React state of the `Game` component that the synchronization logic
reads and writes (transient UI-only state such as the extra-turn toast and
the chat are not modelled). -/
structure GameSt where
  gameState : GamePhase
  playerTurn : Bool
  isAnimating : Bool
  pendingTurnUpdate : Option Bool
  playerBoard : Board
  opponentBoard : Board
  winner : Option Winner
  gameOverDialogOpen : Bool
deriving DecidableEq, Repr

/-- Payload of a `turn_update` event. -/
structure TurnUpdateData where
  playerTurn : Bool
  reason : Option String
deriving DecidableEq, Repr

/-- Payload of a `move_result` event (`keepTurn`/`gameOver` are optional in
the source; an absent flag behaves as `false`). -/
structure MoveResultData where
  row : Nat
  col : Nat
  result : MoveOutcome
  isPlayerBoard : Bool
  keepTurn : Bool
  gameOver : Bool
deriving DecidableEq, Repr

/-- `handleTurnUpdate` from `Game.tsx` (lines 243–278). -/
def handleTurnUpdate (s : GameSt) (d : TurnUpdateData) : GameSt :=
  if d.reason = some "hit" ∨ d.reason = some "opponent_hit" then
    if s.isAnimating then
      if d.reason = some "opponent_hit" ∧ s.playerTurn = true then
        { s with pendingTurnUpdate := some false }
      else s
    else
      if d.reason = some "opponent_hit" then { s with playerTurn := false }
      else s
  else
    if s.isAnimating then { s with pendingTurnUpdate := some d.playerTurn }
    else { s with playerTurn := d.playerTurn }

/-- `handleMoveResult` from `Game.tsx` (lines 282–368). -/
def handleMoveResult (s : GameSt) (d : MoveResultData) : GameSt :=
  if d.isPlayerBoard then
    let s1 := { s with playerBoard := applyMoveResult s.playerBoard d.row d.col d.result }
    if d.gameOver then
      { s1 with winner := some Winner.opponent, gameState := GamePhase.GAME_OVER,
                gameOverDialogOpen := true }
    else s1
  else
    let s1 := { s with opponentBoard := applyMoveResult s.opponentBoard d.row d.col d.result }
    let s2 := if (d.result = MoveOutcome.hit ∨ d.result = MoveOutcome.sunk) ∧ d.keepTurn = true
      then { s1 with playerTurn := true } else s1
    let s3 := { s2 with isAnimating := true }
    if d.gameOver then
      { s3 with winner := some Winner.player, gameState := GamePhase.GAME_OVER,
                gameOverDialogOpen := true }
    else s3

/-- `handleAnimationComplete` from `Game.tsx` (lines 515–527): the animation
finished; apply a buffered turn update, if any. -/
def handleAnimationComplete (s : GameSt) : GameSt :=
  let s1 := { s with isAnimating := false }
  match s.pendingTurnUpdate with
  | some v => { s1 with playerTurn := v, pendingTurnUpdate := none }
  | none => s1

/-- The `useEffect` of `Game.tsx` lines 432–438: whenever a pending turn
update exists and no animation is active, apply and clear it. -/
def applyPendingTurnEffect (s : GameSt) : GameSt :=
  match s.pendingTurnUpdate, s.isAnimating with
  | some v, false => { s with playerTurn := v, pendingTurnUpdate := none }
  | _, _ => s

/-- `handleAttackOpponent` from `Game.tsx` (lines 490–512).  Returns the new
state and whether `socketService.makeMove` was called. -/
def handleAttackOpponent (s : GameSt) (row col : Nat) : GameSt × Bool :=
  if s.gameState ≠ GamePhase.PLAYING ∨
     s.playerTurn = false ∨
     getCell s.opponentBoard row col = CellState.HIT ∨
     getCell s.opponentBoard row col = CellState.MISS ∨
     getCell s.opponentBoard row col = CellState.SUNK then
    (s, false)
  else
    ({ s with isAnimating := true }, true)

/-- The opponent-board click path of `CanvasGameBoard.tsx` `mousePressed`
(lines 938–956): the click only reaches `onCellClick` (that is,
`handleAttackOpponent`) when the cell is `EMPTY` and no animation is active
on that cell; `anims` is the list of cells with an active animation. -/
def mousePressedAttack (s : GameSt) (anims : List (Nat × Nat)) (row col : Nat) :
    GameSt × Bool :=
  if getCell s.opponentBoard row col = CellState.EMPTY ∧ ¬ (row, col) ∈ anims then
    handleAttackOpponent s row col
  else
    (s, false)

/-! ### Ships and placement validation (`Ship.ts`, `CanvasGameBoard.tsx`,
`ShipPlacementBoard.tsx`) -/

/-- `enum ShipType` of `Ship.ts`. -/
inductive ShipType where
  | carrier
  | battleship
  | cruiser
  | submarine
  | destroyer
deriving DecidableEq, Repr

/-- `enum Orientation` of `Ship.ts`. -/
inductive Orientation where
  | horizontal
  | vertical
deriving DecidableEq, Repr

/-- The `Ship` interface of `Ship.ts`.  Coordinates and sizes are JavaScript
numbers, modelled as integers; `position` is optional (absent while the ship
is unplaced). -/
structure Ship where
  id : String
  type : ShipType
  size : Int
  position : Option (Int × Int)
  orientation : Orientation
  hits : Int
deriving DecidableEq, Repr

/-- The cell occupied at loop index `i` in the validation loops: the anchor,
advanced along the ship's orientation. -/
def occupiedCell (pos : Int × Int) (orient : Orientation) (i : Nat) : Int × Int :=
  match orient with
  | .horizontal => (pos.1, pos.2 + i)
  | .vertical => (pos.1 + i, pos.2)

/-- The cells a ship of the given size occupies from an anchor, one per loop
iteration `0 ≤ i < size` (none when the size is zero or negative, as the
JavaScript `for` loop would not run). -/
def shipCells (pos : Int × Int) (orient : Orientation) (size : Int) : List (Int × Int) :=
  (List.range size.toNat).map (occupiedCell pos orient)

/-- The inner loop of `isValidPosition`: does `other` (if placed) occupy
`cell`? -/
def shipOccupies (other : Ship) (cell : Int × Int) : Bool :=
  match other.position with
  | none => false
  | some p => (shipCells p other.orientation other.size).any (fun oc => oc = cell)

/-- `isValidPosition` from `CanvasGameBoard.tsx` (lines 227–279) and
`ShipPlacementBoard.tsx` (lines 116–168): a far-edge bound check along the
ship's orientation, then an overlap check of every candidate cell against
every other placed ship (self excluded by id). -/
def isValidPosition (boardSize : Int) (ships : List Ship) (ship : Ship)
    (row col : Int) (orient : Orientation) : Bool :=
  let exceeds : Bool :=
    match orient with
    | .horizontal => col + ship.size > boardSize
    | .vertical => row + ship.size > boardSize
  if exceeds then
    false
  else
    !((shipCells (row, col) orient ship.size).any fun cell =>
        ships.any fun other => !(other.id = ship.id) && shipOccupies other cell)

/-- Flip an orientation, as the rotation handlers do. -/
def flipOrient : Orientation → Orientation
  | .horizontal => .vertical
  | .vertical => .horizontal

/-- The per-ship body of `handleRotate` (`ShipPlacementBoard.tsx` lines
94–113) and `rotateShip` (`CanvasGameBoard.tsx` lines 282–310): flip the
orientation only when the ship matches, has an anchor, and the flipped
placement at that anchor is valid against the other ships. -/
def rotateOne (ships : List Ship) (shipId : String) (ship : Ship) : Ship :=
  if ship.id = shipId then
    match ship.position with
    | some p =>
      if isValidPosition 10 ships ship p.1 p.2 (flipOrient ship.orientation) then
        { ship with orientation := flipOrient ship.orientation }
      else ship
    | none => ship
  else ship

/-- `handleRotate` / `rotateShip`: map the rotation attempt over the fleet. -/
def handleRotate (ships : List Ship) (shipId : String) : List Ship :=
  ships.map (rotateOne ships shipId)

/-- Rotation of `ship` would be rejected: either it has no anchor, or the
flipped placement at its anchor is invalid. -/
def rotationInvalid (ships : List Ship) (ship : Ship) : Bool :=
  match ship.position with
  | some p => !(isValidPosition 10 ships ship p.1 p.2 (flipOrient ship.orientation))
  | none => true

/-- A cell lies inside the 10×10 grid. -/
def cellInBounds (c : Int × Int) : Bool :=
  0 ≤ c.1 && c.1 < 10 && 0 ≤ c.2 && c.2 < 10

/-- `getInitialShips` from `Ship.ts` (lines 35–73). -/
def getInitialShips : List Ship :=
  [ { id := "1", type := .carrier, size := 5, position := none,
      orientation := .horizontal, hits := 0 },
    { id := "2", type := .battleship, size := 4, position := none,
      orientation := .horizontal, hits := 0 },
    { id := "3", type := .cruiser, size := 3, position := none,
      orientation := .horizontal, hits := 0 },
    { id := "4", type := .submarine, size := 3, position := none,
      orientation := .horizontal, hits := 0 },
    { id := "5", type := .destroyer, size := 2, position := none,
      orientation := .horizontal, hits := 0 } ]

/-- Set the anchor of the `i`-th ship, as the index assignments of
`getDefaultShipPlacement` do. -/
def setShipPos (ships : List Ship) (i : Nat) (p : Int × Int) : List Ship :=
  match ships.get? i with
  | some s => ships.set i { s with position := some p }
  | none => ships

/-- `getDefaultShipPlacement` from `Ship.ts` (lines 76–89): the compact
default pattern at the bottom right. -/
def getDefaultShipPlacement (boardSize : Int) : List Ship :=
  let ships := getInitialShips
  let ships := setShipPos ships 0 (boardSize - 1, boardSize - 5)
  let ships := setShipPos ships 1 (boardSize - 2, boardSize - 4)
  let ships := setShipPos ships 2 (boardSize - 3, boardSize - 3)
  let ships := setShipPos ships 3 (boardSize - 4, boardSize - 3)
  let ships := setShipPos ships 4 (boardSize - 5, boardSize - 2)
  ships

/-! ### Auxiliary facts for the claims -/

theorem list_map_eq_self {α : Type} (l : List α) (f : α → α)
    (h : ∀ x ∈ l, f x = x) : l.map f = l := by
  induction l with
  | nil => rfl
  | cons hd tl ih =>
    rw [List.map_cons, h hd (by simp), ih (fun x hx => h x (by simp [hx]))]

/-- The forward order on cell states stated by the spec:
`Empty/ShipPresent → Hit → Sunk` or `Empty → Miss` (reflexive). -/
def cellForward (a b : CellState) : Prop :=
  a = b ∨
  ((a = CellState.EMPTY ∨ a = CellState.SHIP) ∧
   (b = CellState.HIT ∨ b = CellState.SUNK)) ∨
  (a = CellState.HIT ∧ b = CellState.SUNK) ∨
  (a = CellState.EMPTY ∧ b = CellState.MISS)

instance (a b : CellState) : Decidable (cellForward a b) := by
  unfold cellForward
  infer_instance

theorem hitOrShip_forward_sunk {c : CellState} (h : hitOrShip c = true) :
    cellForward c CellState.SUNK := by
  cases c <;> first | decide | simp [hitOrShip] at h

theorem forward_sunk_of_ne_miss {c : CellState} (h : c ≠ CellState.MISS) :
    cellForward c CellState.SUNK := by
  cases c <;> first | decide | exact absurd rfl h

/-- A move-result event is not a stale redelivery: its target cell has not
already advanced past the event's outcome. -/
def eventFresh (b : Board) (row col : Nat) : MoveOutcome → Bool
  | .hit =>
    !(decide (getCell b row col = CellState.SUNK)) &&
    !(decide (getCell b row col = CellState.MISS))
  | .miss =>
    decide (getCell b row col = CellState.EMPTY) ||
    decide (getCell b row col = CellState.MISS)
  | .sunk => !(decide (getCell b row col = CellState.MISS))

/-- A convenient concrete state: mid-game, player's turn, nothing animating. -/
def initialState : GameSt :=
  { gameState := GamePhase.PLAYING, playerTurn := true, isAnimating := false,
    pendingTurnUpdate := none, playerBoard := emptyBoard,
    opponentBoard := emptyBoard, winner := none, gameOverDialogOpen := false }

/-! ### The claims -/

/-- C1: for every board and `Sunk` move result at `(row, col)`, the engine
determines the ship's extent by scanning one axis (left/right over `HIT` /
`SHIP` neighbours first, then up/down only when the horizontal run has
length 1) and marks exactly the cells of that extent `SUNK`, leaving every
other cell unchanged; in particular, for a horizontal size-2 ship at
(3,4)–(3,5), a `Hit` result at (3,4) leaves that cell `HIT` (not `SUNK`),
and a following `Sunk` result at (3,5) marks both cells `SUNK`. -/
theorem c1_sunk_marks_scanned_extent :
    (∀ (b : Board) (row col : Nat), wellFormed b → row < 10 → col < 10 →
      ∀ i j, getCell (applyMoveResult b row col MoveOutcome.sunk) i j =
        if inExtent b row col i j then CellState.SUNK else getCell b i j) ∧
    (getCell (applyMoveResult emptyBoard 3 4 MoveOutcome.hit) 3 4 = CellState.HIT ∧
     getCell (applyMoveResult emptyBoard 3 4 MoveOutcome.hit) 3 4 ≠ CellState.SUNK ∧
     getCell (applyMoveResult (applyMoveResult emptyBoard 3 4 MoveOutcome.hit)
       3 5 MoveOutcome.sunk) 3 4 = CellState.SUNK ∧
     getCell (applyMoveResult (applyMoveResult emptyBoard 3 4 MoveOutcome.hit)
       3 5 MoveOutcome.sunk) 3 5 = CellState.SUNK) := by
  constructor
  · intro b row col hw hr hc i j
    exact findAndMark_getCell b row col hw hr hc i j
  · decide

theorem c1_sunk_marks_scanned_extent_witness :
    getCell (applyMoveResult (applyMoveResult emptyBoard 3 4 MoveOutcome.hit)
      3 5 MoveOutcome.sunk) 3 4 = CellState.SUNK := by
  rw [c1_sunk_marks_scanned_extent.1 (applyMoveResult emptyBoard 3 4 MoveOutcome.hit)
    3 5 (by decide) (by decide) (by decide) 3 4]
  decide

/-- C3: applying the same `(row, col, Hit)` move-result event twice yields
the same boards as applying it once — a redelivered identical `Hit` is a
grid-level no-op. -/
theorem c3_hit_idempotent (s : GameSt) (d : MoveResultData)
    (hres : d.result = MoveOutcome.hit) :
    (handleMoveResult (handleMoveResult s d) d).playerBoard =
      (handleMoveResult s d).playerBoard ∧
    (handleMoveResult (handleMoveResult s d) d).opponentBoard =
      (handleMoveResult s d).opponentBoard := by
  cases hb : d.isPlayerBoard <;> cases hg : d.gameOver <;> cases hk : d.keepTurn <;>
    simp [handleMoveResult, hb, hg, hk, applyMoveResult, hres, setCell_setCell_same]

theorem c3_hit_idempotent_witness :
    (handleMoveResult (handleMoveResult initialState
        { row := 2, col := 7, result := MoveOutcome.hit, isPlayerBoard := false,
          keepTurn := true, gameOver := false })
        { row := 2, col := 7, result := MoveOutcome.hit, isPlayerBoard := false,
          keepTurn := true, gameOver := false }).playerBoard =
      (handleMoveResult initialState
        { row := 2, col := 7, result := MoveOutcome.hit, isPlayerBoard := false,
          keepTurn := true, gameOver := false }).playerBoard ∧
    (handleMoveResult (handleMoveResult initialState
        { row := 2, col := 7, result := MoveOutcome.hit, isPlayerBoard := false,
          keepTurn := true, gameOver := false })
        { row := 2, col := 7, result := MoveOutcome.hit, isPlayerBoard := false,
          keepTurn := true, gameOver := false }).opponentBoard =
      (handleMoveResult initialState
        { row := 2, col := 7, result := MoveOutcome.hit, isPlayerBoard := false,
          keepTurn := true, gameOver := false }).opponentBoard :=
  c3_hit_idempotent initialState
    { row := 2, col := 7, result := MoveOutcome.hit, isPlayerBoard := false,
      keepTurn := true, gameOver := false } rfl

/-- C6: a local hit with `keepTurn` granted forces `playerTurn := true`
inside the move-result handling itself, leaving the pending-turn buffer
untouched — regardless of whether an animation is playing. -/
theorem c6_keepTurn_forces_player_turn (s : GameSt) (d : MoveResultData)
    (hb : d.isPlayerBoard = false) (hres : d.result = MoveOutcome.hit)
    (hk : d.keepTurn = true) :
    (handleMoveResult s d).playerTurn = true ∧
    (handleMoveResult s d).pendingTurnUpdate = s.pendingTurnUpdate := by
  cases hg : d.gameOver <;> simp [handleMoveResult, hb, hres, hk, hg]

theorem c6_keepTurn_forces_player_turn_witness :
    (handleMoveResult
      { initialState with playerTurn := false, isAnimating := true }
      { row := 0, col := 0, result := MoveOutcome.hit, isPlayerBoard := false,
        keepTurn := true, gameOver := false }).playerTurn = true ∧
    (handleMoveResult
      { initialState with playerTurn := false, isAnimating := true }
      { row := 0, col := 0, result := MoveOutcome.hit, isPlayerBoard := false,
        keepTurn := true, gameOver := false }).pendingTurnUpdate = none := by
  have h := c6_keepTurn_forces_player_turn
    { initialState with playerTurn := false, isAnimating := true }
    { row := 0, col := 0, result := MoveOutcome.hit, isPlayerBoard := false,
      keepTurn := true, gameOver := false } rfl rfl rfl
  exact ⟨h.1, h.2⟩

/-- C7: an attack request is silently dropped (state unchanged, no move
sent) whenever the target cell is not `EMPTY`, an animation is active on it,
the game is not in the playing phase, or it is not the player's turn; only a
request that passes all four conditions sends a move (and starts the
animation). -/
theorem c7_attack_request_gating (s : GameSt) (anims : List (Nat × Nat))
    (row col : Nat) :
    ((getCell s.opponentBoard row col ≠ CellState.EMPTY ∨ (row, col) ∈ anims ∨
        s.gameState ≠ GamePhase.PLAYING ∨ s.playerTurn = false) →
      mousePressedAttack s anims row col = (s, false)) ∧
    (getCell s.opponentBoard row col = CellState.EMPTY → (row, col) ∉ anims →
      s.gameState = GamePhase.PLAYING → s.playerTurn = true →
      mousePressedAttack s anims row col =
        ({ s with isAnimating := true }, true)) := by
  constructor
  · intro h
    unfold mousePressedAttack handleAttackOpponent
    by_cases hc : getCell s.opponentBoard row col = CellState.EMPTY ∧
        ¬ (row, col) ∈ anims
    · rw [if_pos hc, if_pos (by tauto)]
    · rw [if_neg hc]
  · intro h1 h2 h3 h4
    unfold mousePressedAttack handleAttackOpponent
    rw [if_pos ⟨h1, h2⟩, if_neg (by simp [h1, h3, h4])]

theorem c7_attack_request_gating_witness :
    mousePressedAttack initialState [] 0 0 =
      ({ initialState with isAnimating := true }, true) :=
  (c7_attack_request_gating initialState [] 0 0).2 (by decide) (by decide) rfl rfl

/-- C10: `getDefaultShipPlacement 10` returns exactly the five standard
ships (sizes 5, 4, 3, 3, 2), all anchored, and the resulting fleet is a
legal placement: every ship passes `isValidPosition` against the rest of
the fleet and occupies only in-bounds cells. -/
theorem c10_default_placement_legal :
    (getDefaultShipPlacement 10).map Ship.size = [5, 4, 3, 3, 2] ∧
    ((getDefaultShipPlacement 10).all fun s => s.position.isSome) = true ∧
    ((getDefaultShipPlacement 10).all fun s =>
      match s.position with
      | some p =>
        isValidPosition 10 (getDefaultShipPlacement 10) s p.1 p.2 s.orientation &&
          (shipCells p s.orientation s.size).all cellInBounds
      | none => false) = true := by
  refine ⟨by decide, by decide, by decide⟩

/-- C2 (counterexample): a `turn_update` with reason `"hit"` arriving while
an animation is active does not store its turn value in the pending slot —
the handler returns with the slot still empty, so the claimed "the new value
is stored in the single pending-turn slot" fails for this event. -/
theorem c2_turn_buffering_counterexample :
    (handleTurnUpdate
      { initialState with isAnimating := true }
      { playerTurn := false, reason := some "hit" }).pendingTurnUpdate = none ∧
    (handleTurnUpdate
      { initialState with isAnimating := true }
      { playerTurn := false, reason := some "hit" }).pendingTurnUpdate ≠
      some false := by
  constructor <;> decide

/-- C2 (amended): while an animation is active, a `turn_update` never
changes `playerTurn`; an update with no hit-related reason stores its value
in the pending slot; and when the animation completes, a stored pending
value is applied and the slot cleared. -/
theorem c2_turn_buffering (s : GameSt) (d : TurnUpdateData)
    (ha : s.isAnimating = true) :
    (handleTurnUpdate s d).playerTurn = s.playerTurn ∧
    (d.reason ≠ some "hit" → d.reason ≠ some "opponent_hit" →
      (handleTurnUpdate s d).pendingTurnUpdate = some d.playerTurn) ∧
    (∀ v, s.pendingTurnUpdate = some v →
      (handleAnimationComplete s).playerTurn = v ∧
      (handleAnimationComplete s).pendingTurnUpdate = none ∧
      (handleAnimationComplete s).isAnimating = false) := by
  refine ⟨?_, ?_, ?_⟩
  · unfold handleTurnUpdate
    split_ifs <;> rfl
  · intro h1 h2
    unfold handleTurnUpdate
    rw [if_neg (by tauto), if_pos ha]
  · intro v hv
    unfold handleAnimationComplete
    rw [hv]
    exact ⟨rfl, rfl, rfl⟩

theorem c2_turn_buffering_witness :
    (handleTurnUpdate
      { initialState with isAnimating := true, pendingTurnUpdate := some true }
      { playerTurn := false, reason := none }).playerTurn = true ∧
    (handleTurnUpdate
      { initialState with isAnimating := true, pendingTurnUpdate := some true }
      { playerTurn := false, reason := none }).pendingTurnUpdate = some false ∧
    (handleAnimationComplete
      { initialState with
          isAnimating := true
          pendingTurnUpdate := some true }).playerTurn = true := by
  have h := c2_turn_buffering
    { initialState with isAnimating := true, pendingTurnUpdate := some true }
    { playerTurn := false, reason := none } rfl
  exact ⟨h.1, h.2.1 (by decide) (by decide), (h.2.2 true rfl).1⟩

/-- C4 (counterexample): move-result events are applied without regard to
the cell's current state, so a redelivered `Hit` arriving after the `Sunk`
event for the same ship reverts the cell from `SUNK` back to `HIT` — a
backwards transition in the spec's order. -/
theorem c4_monotonicity_counterexample :
    getCell (applyMoveResult (applyMoveResult emptyBoard 3 4 MoveOutcome.hit)
      3 5 MoveOutcome.sunk) 3 4 = CellState.SUNK ∧
    getCell (applyMoveResult (applyMoveResult (applyMoveResult emptyBoard
      3 4 MoveOutcome.hit) 3 5 MoveOutcome.sunk) 3 4 MoveOutcome.hit) 3 4 =
      CellState.HIT ∧
    ¬ cellForward CellState.SUNK CellState.HIT := by
  refine ⟨by decide, by decide, by decide⟩

/-- C4 (amended): every single applied move-result event moves every cell
forward along `Empty/ShipPresent → Hit → Sunk` / `Empty → Miss`, provided
the event is not a stale redelivery (its target cell has not already
advanced past the event's outcome). -/
theorem c4_fresh_event_monotone (b : Board) (row col : Nat) (r : MoveOutcome)
    (hw : wellFormed b) (hr : row < 10) (hc : col < 10)
    (hfresh : eventFresh b row col r = true) :
    ∀ i j, cellForward (getCell b i j) (getCell (applyMoveResult b row col r) i j) := by
  intro i j
  cases r with
  | hit =>
    simp only [eventFresh, Bool.and_eq_true, Bool.not_eq_true',
      decide_eq_false_iff_not] at hfresh
    simp only [applyMoveResult]
    rw [getCell_setCell b row col i j CellState.HIT hw hr hc]
    split_ifs with h
    · obtain ⟨hi, hj⟩ := h
      subst hi; subst hj
      cases hcell : getCell b i j <;>
        first
        | decide
        | exact absurd hcell hfresh.1
        | exact absurd hcell hfresh.2
    · exact Or.inl rfl
  | miss =>
    simp only [eventFresh, Bool.or_eq_true, decide_eq_true_eq] at hfresh
    simp only [applyMoveResult]
    rw [getCell_setCell b row col i j CellState.MISS hw hr hc]
    split_ifs with h
    · obtain ⟨hi, hj⟩ := h
      subst hi; subst hj
      rcases hfresh with hcell | hcell <;> rw [hcell] <;> decide
    · exact Or.inl rfl
  | sunk =>
    simp only [eventFresh, Bool.not_eq_true', decide_eq_false_iff_not] at hfresh
    simp only [applyMoveResult]
    rw [findAndMark_getCell b row col hw hr hc i j]
    split_ifs with hex
    · by_cases htgt : i = row ∧ j = col
      · obtain ⟨hi, hj⟩ := htgt
        subst hi; subst hj
        exact forward_sunk_of_ne_miss hfresh
      · -- a non-target extent cell was `HIT` or `SHIP` before the event
        have hos : hitOrShip (getCell b i j) = true := by
          have hgnb : getCell (setCell b row col CellState.SUNK) i j =
              getCell b i j := by
            rw [getCell_setCell b row col i j CellState.SUNK hw hr hc,
              if_neg htgt]
          have hsL : scanLeft (setCell b row col CellState.SUNK) row col ≤ col :=
            scanLeft_le _ row col
          have hsR : col ≤ scanRight (setCell b row col CellState.SUNK) row col :=
            scanRightGo_ge _ row 9 col
          have hsU : scanUp (setCell b row col CellState.SUNK) col row ≤ row :=
            scanUp_le _ col row
          have hsD : row ≤ scanDown (setCell b row col CellState.SUNK) col row :=
            scanDownGo_ge _ col 9 row
          simp only [inExtent] at hex
          by_cases hH : scanRight (setCell b row col CellState.SUNK) row col -
              scanLeft (setCell b row col CellState.SUNK) row col > 0
          · rw [if_pos hH] at hex
            simp only [Bool.and_eq_true, decide_eq_true_eq] at hex
            obtain ⟨⟨hi, hsj⟩, hje⟩ := hex
            subst hi
            rcases Nat.lt_or_ge j col with hj | hj
            · rw [← hgnb]
              exact scanLeft_mem _ i col j hsj hj
            · have hj' : col < j := by
                rcases Nat.eq_or_lt_of_le hj with h' | h'
                · exact absurd ⟨rfl, h'.symm⟩ htgt
                · exact h'
              rw [← hgnb]
              exact scanRightGo_mem _ i 9 col j hj' hje
          · rw [if_neg hH] at hex
            by_cases hV : scanDown (setCell b row col CellState.SUNK) col row -
                scanUp (setCell b row col CellState.SUNK) col row > 0
            · rw [if_pos hV] at hex
              simp only [Bool.and_eq_true, decide_eq_true_eq] at hex
              obtain ⟨⟨hj, hsi⟩, hie⟩ := hex
              subst hj
              rcases Nat.lt_or_ge i row with hi | hi
              · rw [← hgnb]
                exact scanUp_mem _ j row i hsi hi
              · have hi' : row < i := by
                  rcases Nat.eq_or_lt_of_le hi with h' | h'
                  · exact absurd ⟨h'.symm, rfl⟩ htgt
                  · exact h'
                rw [← hgnb]
                exact scanDownGo_mem _ j 9 row i hi' hie
            · rw [if_neg hV] at hex
              simp only [Bool.and_eq_true, decide_eq_true_eq] at hex
              exact absurd hex htgt
        exact hitOrShip_forward_sunk hos
    · exact Or.inl rfl

theorem c4_fresh_event_monotone_witness :
    cellForward (getCell emptyBoard 0 0)
      (getCell (applyMoveResult emptyBoard 0 0 MoveOutcome.hit) 0 0) :=
  c4_fresh_event_monotone emptyBoard 0 0 MoveOutcome.hit
    (by decide) (by decide) (by decide) (by decide) 0 0

theorem shipOccupies_iff (other : Ship) (cell : Int × Int) :
    shipOccupies other cell = true ↔
      ∃ p, other.position = some p ∧
        cell ∈ shipCells p other.orientation other.size := by
  unfold shipOccupies
  cases hp : other.position with
  | none => simp
  | some p => simp [List.any_eq_true]

theorem overlap_any_iff (others : List Ship) (ship : Ship) (cell : Int × Int) :
    (others.any fun other => !(other.id = ship.id) && shipOccupies other cell)
      = true ↔
    ∃ other ∈ others, other.id ≠ ship.id ∧ ∃ p, other.position = some p ∧
      cell ∈ shipCells p other.orientation other.size := by
  rw [List.any_eq_true]
  constructor
  · rintro ⟨other, hother, hco⟩
    rw [Bool.and_eq_true] at hco
    obtain ⟨hne, hso⟩ := hco
    exact ⟨other, hother, by simpa using hne,
      (shipOccupies_iff other cell).mp hso⟩
  · rintro ⟨other, hother, hne, hex⟩
    refine ⟨other, hother, ?_⟩
    rw [Bool.and_eq_true]
    exact ⟨by simpa using hne, (shipOccupies_iff other cell).mpr hex⟩

/-- C5 (counterexample): the bound check of `isValidPosition` only inspects
the far edge along the ship's own orientation axis, never the cross-axis
coordinate, so a horizontal size-2 ship anchored at row 15 — entirely
outside the 10×10 grid — is accepted with no other ships present. -/
theorem c5_validation_counterexample :
    isValidPosition 10 []
      { id := "1", type := ShipType.destroyer, size := 2, position := none,
        orientation := Orientation.horizontal, hits := 0 }
      15 0 Orientation.horizontal = true ∧
    ((shipCells (15, 0) Orientation.horizontal 2).all cellInBounds) = false := by
  constructor <;> decide

/-- C5 (amended): `isValidPosition` returns true iff the run's far edge
stays within the board along the ship's orientation axis (the cross-axis
coordinate and negative anchors are not checked) and the candidate cells
meet no cell of any other already-placed ship (self excluded by id, ships
without an anchor never overlapping). -/
theorem c5_validation_characterized (others : List Ship) (ship : Ship)
    (row col : Int) (orient : Orientation) :
    isValidPosition 10 others ship row col orient = true ↔
      ((orient = Orientation.horizontal → col + ship.size ≤ 10) ∧
       (orient = Orientation.vertical → row + ship.size ≤ 10) ∧
       ∀ cell ∈ shipCells (row, col) orient ship.size,
         ∀ other ∈ others, other.id ≠ ship.id → ∀ p, other.position = some p →
           cell ∉ shipCells p other.orientation other.size) := by
  cases orient with
  | horizontal =>
    simp only [isValidPosition]
    by_cases hb : col + ship.size > 10
    · rw [if_pos (by simpa using hb)]
      simp only [Bool.false_eq_true, false_iff]
      rintro ⟨h1, -, -⟩
      exact absurd (h1 (by trivial)) (by omega)
    · rw [if_neg (by simpa using hb)]
      rw [Bool.not_eq_true', Bool.eq_false_iff]
      constructor
      · intro h
        refine ⟨fun _ => by omega, fun hv => Orientation.noConfusion hv, ?_⟩
        intro cell hcell other hother hid p hp hmem
        refine absurd ?_ h
        rw [List.any_eq_true]
        exact ⟨cell, hcell,
          (overlap_any_iff others ship cell).mpr ⟨other, hother, hid, p, hp, hmem⟩⟩
      · rintro ⟨-, -, hno⟩ hcontra
        rw [List.any_eq_true] at hcontra
        obtain ⟨cell, hcell, hinner⟩ := hcontra
        obtain ⟨other, hother, hid, p, hp, hmem⟩ :=
          (overlap_any_iff others ship cell).mp hinner
        exact hno cell hcell other hother hid p hp hmem
  | vertical =>
    simp only [isValidPosition]
    by_cases hb : row + ship.size > 10
    · rw [if_pos (by simpa using hb)]
      simp only [Bool.false_eq_true, false_iff]
      rintro ⟨-, h2, -⟩
      exact absurd (h2 (by trivial)) (by omega)
    · rw [if_neg (by simpa using hb)]
      rw [Bool.not_eq_true', Bool.eq_false_iff]
      constructor
      · intro h
        refine ⟨fun hv => Orientation.noConfusion hv, fun _ => by omega, ?_⟩
        intro cell hcell other hother hid p hp hmem
        refine absurd ?_ h
        rw [List.any_eq_true]
        exact ⟨cell, hcell,
          (overlap_any_iff others ship cell).mpr ⟨other, hother, hid, p, hp, hmem⟩⟩
      · rintro ⟨-, -, hno⟩ hcontra
        rw [List.any_eq_true] at hcontra
        obtain ⟨cell, hcell, hinner⟩ := hcontra
        obtain ⟨other, hother, hid, p, hp, hmem⟩ :=
          (overlap_any_iff others ship cell).mp hinner
        exact hno cell hcell other hother hid p hp hmem

/-- C8: when the flipped placement at a ship's anchor is invalid (or the
ship has no anchor), the rotate operation is a silent no-op: the whole fleet
list, including that ship's orientation and anchor, is returned unchanged. -/
theorem c8_rotation_rejected_noop (ships : List Ship) (shipId : String)
    (h : ∀ ship ∈ ships, ship.id = shipId → rotationInvalid ships ship = true) :
    handleRotate ships shipId = ships := by
  unfold handleRotate
  apply list_map_eq_self
  intro ship hmem
  unfold rotateOne
  by_cases hid : ship.id = shipId
  · rw [if_pos hid]
    have hrot := h ship hmem hid
    unfold rotationInvalid at hrot
    cases hp : ship.position with
    | none => simp only [hp]
    | some p =>
      simp only [hp, Bool.not_eq_true'] at hrot
      simp only [hp]
      rw [if_neg (by simp [hrot])]
  · rw [if_neg hid]

theorem c8_rotation_rejected_noop_witness :
    handleRotate
      [{ id := "1", type := ShipType.destroyer, size := 2,
         position := some (9, 0), orientation := Orientation.horizontal,
         hits := 0 }] "1" =
      [{ id := "1", type := ShipType.destroyer, size := 2,
         position := some (9, 0), orientation := Orientation.horizontal,
         hits := 0 }] :=
  c8_rotation_rejected_noop
    [{ id := "1", type := ShipType.destroyer, size := 2,
       position := some (9, 0), orientation := Orientation.horizontal,
       hits := 0 }] "1" (by decide)

/-- C9 (counterexample): no size validation exists — querying the placement
validator with a size-0 or negative-size ship does not fail (there is no
`InvalidShipSize` error path anywhere); it simply returns `true`. -/
theorem c9_no_invalid_ship_size_error :
    isValidPosition 10 []
      { id := "z", type := ShipType.destroyer, size := 0, position := none,
        orientation := Orientation.horizontal, hits := 0 }
      0 0 Orientation.horizontal = true ∧
    isValidPosition 10 []
      { id := "z", type := ShipType.destroyer, size := -1, position := none,
        orientation := Orientation.horizontal, hits := 0 }
      0 0 Orientation.horizontal = true := by
  constructor <;> decide

/-- C9 (amended): for a size ≤ 0 ship the validator performs no size check:
the occupied run is empty, the overlap loop never runs, and the result is
exactly the far-edge bound test along the orientation axis. -/
theorem c9_nonpositive_size_unchecked (ships : List Ship) (ship : Ship)
    (row col : Int) (orient : Orientation) (hsz : ship.size ≤ 0) :
    isValidPosition 10 ships ship row col orient =
      (match orient with
       | Orientation.horizontal => decide (col + ship.size ≤ 10)
       | Orientation.vertical => decide (row + ship.size ≤ 10)) := by
  have hcells : shipCells (row, col) orient ship.size = [] := by
    unfold shipCells
    rw [Int.toNat_of_nonpos hsz]
    rfl
  cases orient with
  | horizontal =>
    simp only [isValidPosition, hcells, List.any_nil, Bool.not_false]
    by_cases hb : col + ship.size > 10
    · rw [if_pos (decide_eq_true hb), eq_comm, decide_eq_false_iff_not]
      omega
    · rw [if_neg (by simpa using hb), eq_comm, decide_eq_true_eq]
      omega
  | vertical =>
    simp only [isValidPosition, hcells, List.any_nil, Bool.not_false]
    by_cases hb : row + ship.size > 10
    · rw [if_pos (decide_eq_true hb), eq_comm, decide_eq_false_iff_not]
      omega
    · rw [if_neg (by simpa using hb), eq_comm, decide_eq_true_eq]
      omega

theorem c9_nonpositive_size_unchecked_witness :
    isValidPosition 10 []
      { id := "z", type := ShipType.destroyer, size := 0, position := none,
        orientation := Orientation.vertical, hits := 0 }
      5 5 Orientation.vertical = true := by
  rw [c9_nonpositive_size_unchecked []
    { id := "z", type := ShipType.destroyer, size := 0, position := none,
      orientation := Orientation.vertical, hits := 0 }
    5 5 Orientation.vertical (by decide)]
  decide

end Battleship
